import Mathlib

/-!
Verification of the tajweed rule-detection and scoring engine of the qari-app
repository (`backend/app/services/{tajweed,phoneme_utils,alignment}.py`)
against its natural-language specification.

Embedding conventions: Python `str` values are `List Char`, Python floats are
modelled at rational precision (`ℚ`), Python dicts with fixed keys become
structures, and fallible library calls return `Except`.
-/

namespace QariApp

/-- Characters accepted by Python `str.isspace`, used by `str.split()` with no
arguments (alignment.py, tajweed.py) and by the whitespace check of
`arabic_to_phonemes` (phoneme_utils.py). -/
def py_isspace (c : Char) : Bool :=
  decide (c ∈ [' ', '\t', '\n', '\r', '\x0b', '\x0c', '\x1c', '\x1d', '\x1e',
    '\x1f', '\x85', '\xa0', '\u1680', '\u2000', '\u2001', '\u2002', '\u2003',
    '\u2004', '\u2005', '\u2006', '\u2007', '\u2008', '\u2009', '\u200A',
    '\u2028', '\u2029', '\u202F', '\u205F', '\u3000'])

/-- Helper of `pySplit`: accumulates the characters of the current token in
reverse. -/
def pySplitAux : List Char → List Char → List (List Char)
  | [], acc => if acc.isEmpty then [] else [acc.reverse]
  | c :: cs, acc =>
    if py_isspace c then
      if acc.isEmpty then pySplitAux cs [] else acc.reverse :: pySplitAux cs []
    else
      pySplitAux cs (c :: acc)

/-- Python `str.split()` with no arguments: splits on runs of whitespace and
never returns empty tokens. -/
def pySplit (s : List Char) : List (List Char) :=
  pySplitAux s []

/-- Python `" ".join(tokens)` over tokens-as-char-lists. -/
def pyJoin : List (List Char) → List Char
  | [] => []
  | [w] => w
  | w :: ws => w ++ ' ' :: pyJoin ws

/-- Python `int(x)` applied to a float: truncation toward zero. -/
def pyInt (q : ℚ) : ℤ :=
  if q < 0 then ⌈q⌉ else ⌊q⌋

/-- Python list slicing `l[a:b]` with possibly negative or out-of-range
bounds. -/
def pySlice {α : Type} (l : List α) (a b : ℤ) : List α :=
  let n : ℤ := l.length
  let a2 := (if a < 0 then max 0 (n + a) else min a n).toNat
  let b2 := (if b < 0 then max 0 (n + b) else min b n).toNat
  (l.drop a2).take (b2 - a2)

/-- Mean of a list of rationals, modelling `numpy.mean`.  On an empty array
`numpy` returns NaN, with which every subsequent comparison is false; the
value 0 used here leads to the same control flow at every call site below. -/
def npMean (l : List ℚ) : ℚ :=
  l.sum / l.length

/-- Maximum of a list of rationals, modelling `numpy.max`; every call site
below guards against the empty array (where `numpy` raises). -/
def npMax : List ℚ → ℚ
  | [] => 0
  | x :: xs => xs.foldl max x

/-- Python `round(x, 2)`: rounding to a multiple of 1/100.  CPython rounds
the binary double half-to-even; ties cannot arise at the call site below,
whose inputs are themselves multiples of 1/100, so the rounding mode is
immaterial. -/
def py_round2 (q : ℚ) : ℚ :=
  (round (q * 100) : ℤ) / 100

/-- Python `f"{x:.2f}"` on a float, at rational precision. -/
def pyFormat2 (q : ℚ) : String :=
  let n : ℤ := round (q * 100)
  let sign := if n < 0 then "-" else ""
  let m := n.natAbs
  sign ++ toString (m / 100) ++ "." ++
    (if m % 100 < 10 then "0" else "") ++ toString (m % 100)

/-- Grapheme-to-phoneme table `ARABIC_PHONEMES` of phoneme_utils.py. -/
def ARABIC_PHONEMES : List (Char × String) :=
  [('ب', "b"), ('ت', "t"), ('ث', "th"), ('ج', "j"), ('ح', "H"), ('خ', "x"),
   ('د', "d"), ('ذ', "dh"), ('ر', "r"), ('ز', "z"), ('س', "s"), ('ش', "S"),
   ('ص', "s_"), ('ض', "d_"), ('ط', "t_"), ('ظ', "dh_"), ('ع', "?"),
   ('غ', "G"), ('ف', "f"), ('ق', "q"), ('ك', "k"), ('ل', "l"), ('م', "m"),
   ('ن', "n"), ('ه', "h"), ('و', "w"), ('ي', "y"), ('ء', "\x27"),
   ('ئ', "\x27y"), ('ؤ', "\x27w"), ('أ', "\x27a"), ('إ', "\x27i"),
   ('آ', "\x27aa"), ('ا', "aa"), ('ى', "aa"), ('ة', "h")]

/-- Diacritic-to-vowel table `DIACRITIC_PHONEMES` of phoneme_utils.py; shadda
maps to ":" and sukun to the empty string (which emits nothing). -/
def DIACRITIC_PHONEMES : List (Char × String) :=
  [('َ', "a"), ('ُ', "u"), ('ِ', "i"), ('ً', "an"),
   ('ٌ', "un"), ('ٍ', "in"), ('ّ', ":"), ('ْ', ""),
   ('ٓ', "aa"), ('ٰ', "aa")]

/-- Shadda (gemination) code point U+0651. -/
def SHADDA : Char := 'ّ'

/-- Sukun code point U+0652. -/
def SUKUN : Char := 'ْ'

/-- Embedding of `arabic_to_phonemes` (phoneme_utils.py): whitespace becomes a
single-space token; a table consonant doubles its phoneme when immediately
followed by shadda and consumes the shadda; other diacritics emit their vowel
phoneme (sukun, mapped to the empty string, emits nothing); unrecognized code
points are silently skipped. -/
def arabic_to_phonemes : List Char → List String
  | [] => []
  | [c] =>
    if py_isspace c then [" "]
    else
      match ARABIC_PHONEMES.lookup c with
      | some p => [p]
      | none =>
        match DIACRITIC_PHONEMES.lookup c with
        | some v => if v = "" then [] else [v]
        | none => []
  | c :: d :: cs =>
    if py_isspace c then " " :: arabic_to_phonemes (d :: cs)
    else
      match ARABIC_PHONEMES.lookup c with
      | some p =>
        if d = SHADDA then (p ++ p) :: arabic_to_phonemes cs
        else p :: arabic_to_phonemes (d :: cs)
      | none =>
        match DIACRITIC_PHONEMES.lookup c with
        | some v =>
          if v = "" then arabic_to_phonemes (d :: cs)
          else v :: arabic_to_phonemes (d :: cs)
        | none => arabic_to_phonemes (d :: cs)

/-- Distance matrix of `phoneme_levenshtein` (phoneme_utils.py):
`levDp a b i j` is `dp[i][j]`, the edit distance between the first `i`
phonemes of `a` and the first `j` phonemes of `b`. -/
def levDp (a b : List String) : Nat → Nat → Nat
  | 0, j => j
  | i + 1, 0 => i + 1
  | i + 1, j + 1 =>
    if a.getD i "" = b.getD j "" then levDp a b i j
    else 1 + min (levDp a b i (j + 1)) (min (levDp a b (i + 1) j) (levDp a b i j))

/-- Operation type tags appended by the backtrace of `phoneme_levenshtein`. -/
inductive OpType where
  | substitution
  | insertion
  | deletion
  deriving DecidableEq, Repr

/-- Operation dict appended by the backtrace of `phoneme_levenshtein`:
`index` is its only index key (the source index for substitutions and
insertions, the target index for deletions); `expected` and `detected` are
present or absent depending on the type. -/
structure LevOp where
  type : OpType
  index : Nat
  expected : Option String
  detected : Option String
  deriving DecidableEq, Repr

/-- Backtrace loop of `phoneme_levenshtein`, producing operations in the order
they are appended (walking from the bottom-right corner of the matrix toward
the origin); `phoneme_levenshtein` reverses this list.  Match steps append no
operation. -/
def backtrackOps (a b : List String) (i j : Nat) : List LevOp :=
  if i = 0 ∧ j = 0 then []
  else if 0 < i ∧ 0 < j ∧ a.getD (i - 1) "" = b.getD (j - 1) "" then
    backtrackOps a b (i - 1) (j - 1)
  else if 0 < i ∧ 0 < j ∧ levDp a b i j = levDp a b (i - 1) (j - 1) + 1 then
    ⟨.substitution, i - 1, some (b.getD (j - 1) ""), some (a.getD (i - 1) "")⟩ ::
      backtrackOps a b (i - 1) (j - 1)
  else if 0 < i ∧ levDp a b i j = levDp a b (i - 1) j + 1 then
    ⟨.insertion, i - 1, none, some (a.getD (i - 1) "")⟩ ::
      backtrackOps a b (i - 1) j
  else if 0 < j ∧ levDp a b i j = levDp a b i (j - 1) + 1 then
    ⟨.deletion, j - 1, some (b.getD (j - 1) ""), none⟩ ::
      backtrackOps a b i (j - 1)
  else []
termination_by i + j
decreasing_by all_goals omega

/-- Embedding of `phoneme_levenshtein` (phoneme_utils.py): the edit distance
together with the reversed backtrace operation list. -/
def phoneme_levenshtein (phonemes1 phonemes2 : List String) :
    Nat × List LevOp :=
  (levDp phonemes1 phonemes2 phonemes1.length phonemes2.length,
   (backtrackOps phonemes1 phonemes2 phonemes1.length phonemes2.length).reverse)

/-- Embedding of `phoneme_similarity` (phoneme_utils.py): 0.0 when either
phoneme sequence is empty, else `1 - distance / max(len(p1), len(p2))`. -/
def phoneme_similarity (text1 text2 : List Char) : ℚ :=
  let p1 := arabic_to_phonemes text1
  let p2 := arabic_to_phonemes text2
  if p1 = [] ∨ p2 = [] then 0
  else 1 - ((phoneme_levenshtein p1 p2).1 : ℚ) / ((max p1.length p2.length : ℕ) : ℚ)


/-- Diacritic list of `normalize_arabic_text` (alignment.py): fathatan,
dammatan, kasratan, fatha, damma, kasra, shadda, sukun, maddah, hamza above,
hamza below, superscript alef. -/
def ALIGNMENT_DIACRITICS : List Char :=
  ['ً', 'ٌ', 'ٍ', 'َ', 'ُ', 'ِ',
   'ّ', 'ْ', 'ٓ', 'ٔ', 'ٕ', 'ٰ']

/-- Sequential replacements `normalized.replace(d, "")` over the diacritic
list of `normalize_arabic_text`. -/
def removeDiacritics (text : List Char) : List Char :=
  ALIGNMENT_DIACRITICS.foldl (fun s d => s.filter (· != d)) text

/-- Regex substitution `[أإآا] → ا` (Alef variants) of
`normalize_arabic_text`, as a character map. -/
def normalizeAlef (c : Char) : Char :=
  if c = 'أ' ∨ c = 'إ' ∨ c = 'آ' ∨ c = 'ا' then 'ا' else c

/-- Regex substitution `[ىي] → ي` (Yeh variants) of `normalize_arabic_text`,
as a character map. -/
def normalizeYeh (c : Char) : Char :=
  if c = 'ى' ∨ c = 'ي' then 'ي' else c

/-- Replacement `ة → ه` (Teh Marbuta) of `normalize_arabic_text`, as a
character map. -/
def normalizeTeh (c : Char) : Char :=
  if c = 'ة' then 'ه' else c

/-- Composite character map of `normalize_arabic_text` (Alef, then Yeh, then
Teh-Marbuta canonicalization). -/
def chNorm (c : Char) : Char :=
  normalizeTeh (normalizeYeh (normalizeAlef c))

/-- Embedding of `normalize_arabic_text` (alignment.py): removes the twelve
diacritics, canonicalizes Alef/Yeh/Teh-Marbuta variants, and collapses
whitespace via `" ".join(text.split())`. -/
def normalize_arabic_text (text : List Char) : List Char :=
  pyJoin (pySplit (((removeDiacritics text).map normalizeAlef).map
    normalizeYeh |>.map normalizeTeh))

/-- Enum `TajweedErrorType` (tajweed.py). -/
inductive TajweedErrorType where
  | substituted_letter
  | missing_word
  | madd_short
  | madd_long
  | ghunnah_missing
  | ghunnah_short
  | qalqalah_missing
  | qalqalah_weak
  | idgham_missing
  | ikhfa_missing
  | iqlab_missing
  deriving DecidableEq, Repr

/-- Dataclass `TajweedError` (tajweed.py).  One-character Python strings
(`letter`) are embedded as `Char`; times and confidences are rationals. -/
structure TajweedError where
  type : TajweedErrorType
  letter : Option Char
  expected : Option String
  detected : Option String
  start_time : ℚ
  end_time : ℚ
  confidence : ℚ
  suggestion : String
  correction_audio_url : String
  word_index : Option Nat
  severity : String
  deriving DecidableEq, Repr

/-- One ASR word dict with keys "word", "start", "end"; the source reads them
with `.get("word", "")`, `.get("start", 0)`, `.get("end", 0)`, and the
derived `default` value `⟨[], 0, 0⟩` models the empty dict `{}`. -/
structure WordInfo where
  word : List Char
  start : ℚ
  endTime : ℚ
  deriving DecidableEq, Repr, Inhabited

/-- One ASR segment dict; only its "words" list is read by the detectors. -/
structure Segment where
  words : List WordInfo
  deriving DecidableEq, Repr, Inhabited

/-- Letter set `MADD_LETTERS` (tajweed.py). -/
def MADD_LETTERS : List Char := ['ا', 'و', 'ي', 'ى']

/-- Letter set `GHUNNAH_LETTERS` (tajweed.py). -/
def GHUNNAH_LETTERS : List Char := ['ن', 'م']

/-- Letter set `QALQALAH_LETTERS` (tajweed.py). -/
def QALQALAH_LETTERS : List Char := ['ق', 'ط', 'ب', 'ج', 'د']

/-- Dict `SIMILAR_LETTERS` (tajweed.py): commonly confused letters. -/
def SIMILAR_LETTERS : List (Char × List Char) :=
  [('ق', ['ك', 'غ']), ('ط', ['ت', 'د']), ('ص', ['س', 'ز']),
   ('ض', ['د', 'ظ']), ('ظ', ['ذ', 'ض']), ('ع', ['ا', 'ء']),
   ('ح', ['ه', 'خ']), ('ذ', ['ز', 'ظ']), ('ث', ['س', 'ت'])]

/-- Dict `LETTER_TIPS` (tajweed.py). -/
def LETTER_TIPS : List (Char × String) :=
  [('ق', "Press back of tongue against soft palate. Different from ك which uses middle of tongue."),
   ('ط', "Press tongue tip behind upper teeth with full mouth (heavy). Different from ت which is light."),
   ('ص', "Same position as س but with full/heavy mouth."),
   ('ض', "Unique to Arabic. Press tongue sides against upper molars."),
   ('ظ', "Like ذ but heavy/thick sound."),
   ('ع', "Deep throat sound from pharynx. Not a glottal stop like ء."),
   ('ح', "Voiceless pharyngeal. Deeper than ه, not as deep as ع.")]

/-- Embedding of `is_diacritic` (tajweed.py). -/
def is_diacritic (char : Char) : Bool :=
  ['ً', 'ٌ', 'ٍ', 'َ', 'ُ', 'ِ', 'ّ',
   'ْ', 'ٓ', 'ٔ', 'ٕ', 'ٰ'].contains char

/-- Embedding of `get_correction_url` (tajweed.py). -/
def get_correction_url (letter : Char) : String :=
  let letter_mapping : List (Char × String) :=
    [('ق', "qa_01"), ('ط', "ta_emphatic_01"), ('ص', "sad_01"),
     ('ض', "dad_01"), ('ظ', "dha_emphatic_01"), ('ع', "ayn_01"),
     ('ح', "ha_01")]
  "/api/v1/correction/audio/" ++ (letter_mapping.lookup letter).getD "generic"

/-- Template `SUGGESTIONS[SUBSTITUTED_LETTER]` with `.format` applied. -/
def substitutedLetterSuggestion (expected detected tip : String) : String :=
  "The letter \x27" ++ expected ++ "\x27 was pronounced as \x27" ++
    detected ++ "\x27. " ++ tip

/-- Template `SUGGESTIONS[MISSING_WORD]` with `.format` applied. -/
def missingWordSuggestion (expected : String) : String :=
  "The word \x27" ++ expected ++ "\x27 was not detected in your recitation."

/-- Error record appended by `detect_substituted_letters` for expected
character `ec`, transcribed character `tc`, the matched ASR word dict, and
expected word index `i`; the tip lookup defaults to "Practice this letter
carefully.". -/
def substitutedLetterError (ec tc : Char) (word_info : WordInfo) (i : Nat) :
    TajweedError :=
  { type := .substituted_letter, letter := some ec,
    expected := some (String.mk [ec]),
    detected := some (String.mk [tc]),
    start_time := word_info.start, end_time := word_info.endTime,
    confidence := 0.75,
    suggestion := substitutedLetterSuggestion (String.mk [ec]) (String.mk [tc])
      ((LETTER_TIPS.lookup ec).getD "Practice this letter carefully."),
    correction_audio_url := get_correction_url ec,
    word_index := some i, severity := "high" }

/-- Embedding of `detect_substituted_letters` (tajweed.py): walks expected
words positionally against transcribed words, walks character pairs skipping
diacritics, and emits an error when the differing pair is listed in
`SIMILAR_LETTERS`. -/
def detect_substituted_letters (transcribed_words : List WordInfo)
    (expected_words : List (List Char)) (segments : List Segment) :
    List TajweedError :=
  let transcribed_texts := transcribed_words.map (·.word)
  (expected_words.enum).flatMap fun p =>
    if p.1 < transcribed_texts.length then
      let transcribed := transcribed_texts.getD p.1 []
      (p.2.zip transcribed).filterMap fun q =>
        if is_diacritic q.1 ∨ is_diacritic q.2 then none
        else if q.1 ≠ q.2 then
          match SIMILAR_LETTERS.lookup q.1 with
          | some confusions =>
            if q.2 ∈ confusions then
              let word_info :=
                if p.1 < transcribed_words.length then transcribed_words.getD p.1 default
                else default
              some (substitutedLetterError q.1 q.2 word_info p.1)
            else none
          | none => none
        else none
    else []

/-- Embedding of `detect_missing_words` (tajweed.py): when the expected word
count exceeds the transcribed word count, each expected index from the
transcribed count up to the expected count minus one yields one error. -/
def detect_missing_words (transcribed_words : List WordInfo)
    (expected_words : List (List Char)) (segments : List Segment) :
    List TajweedError :=
  let transcribed_texts := transcribed_words.map (·.word)
  if expected_words.length > transcribed_texts.length then
    (List.range' transcribed_texts.length
        (expected_words.length - transcribed_texts.length)).map fun i =>
      { type := .missing_word, letter := none,
        expected := some (String.mk (expected_words.getD i [])),
        detected := none, start_time := 0, end_time := 0, confidence := 0.8,
        suggestion := missingWordSuggestion (String.mk (expected_words.getD i [])),
        correction_audio_url := "", word_index := some i, severity := "high" }
  else []

/-- Dict lookup `severity_weights.get(e.severity, 0.08)` of
`calculate_score` (tajweed.py). -/
def severityWeight (severity : String) : ℚ :=
  if severity = "high" then 0.15
  else if severity = "medium" then 0.08
  else if severity = "low" then 0.03
  else 0.08

/-- Embedding of `calculate_score` (tajweed.py). -/
def calculate_score (errors : List TajweedError) (word_count : Nat) : ℚ :=
  if word_count = 0 then 0
  else
    let total_penalty := (errors.map fun e => severityWeight e.severity).sum
    py_round2 (max 0 (min 1 (1 - total_penalty)))

/-- Score function as worded by the specification (claim C1): 1.0 minus the
sum of per-error severity penalties (0.15 for "high", 0.08 for "medium",
0.03 for "low", 0.08 for any other severity string), clamped to [0, 1] and
rounded to two decimal places; zero expected words give exactly 0.0. -/
def spec_score (errors : List TajweedError) (expected_word_count : Nat) : ℚ :=
  if expected_word_count = 0 then 0
  else
    let penalty := fun (e : TajweedError) =>
      if e.severity = "high" then (0.15 : ℚ)
      else if e.severity = "medium" then 0.08
      else if e.severity = "low" then 0.03
      else 0.08
    py_round2 (min 1 (max 0 (1 - (errors.map penalty).sum)))

/-- Tags of `difflib.SequenceMatcher.get_opcodes`. -/
inductive OpcodeTag where
  | equal
  | replace
  | delete
  | insert
  deriving DecidableEq, Repr

/-- One `(tag, i1, i2, j1, j2)` opcode of `difflib.SequenceMatcher`. -/
structure Opcode where
  tag : OpcodeTag
  i1 : Nat
  i2 : Nat
  j1 : Nat
  j2 : Nat
  deriving DecidableEq, Repr

/-- Documented output contract of `difflib.SequenceMatcher.get_opcodes` (the
external standard-library collaborator called by `get_word_alignment`):
starting from `(ci, cj)` the opcodes tile both sequences contiguously up to
`(m, n)`; `equal` blocks advance both ranges by the same amount, `delete`
consumes only the source range, `insert` only the target range. -/
def validOpcodesFrom (ci cj m n : Nat) : List Opcode → Bool
  | [] => ci == m && cj == n
  | op :: ops =>
    op.i1 == ci && op.j1 == cj &&
    decide (op.i1 ≤ op.i2) && decide (op.j1 ≤ op.j2) &&
    (match op.tag with
     | .equal => op.i2 - op.i1 == op.j2 - op.j1
     | .replace => true
     | .delete => op.j2 == op.j1
     | .insert => op.i2 == op.i1) &&
    validOpcodesFrom op.i2 op.j2 m n ops

/-- One alignment dict produced by `get_word_alignment` (alignment.py). -/
structure AlignmentEntry where
  type : String
  transcribed_index : Option Nat
  expected_index : Option Nat
  transcribed_word : Option (List Char)
  expected_word : Option (List Char)
  deriving DecidableEq, Repr

/-- Entries appended for one opcode by `get_word_alignment` (alignment.py).
In the `replace` branch the source writes
`transcribed_words[t_idx] if t_idx else None`: Python truthiness makes the
word field `None` when the index is 0 as well as when it is `None`.  List
indexing is embedded with `getD`; for opcodes satisfying the difflib
contract every such index is in range. -/
def emitOpcode (transcribed_words expected_words : List (List Char))
    (op : Opcode) : List AlignmentEntry :=
  match op.tag with
  | .equal =>
    (List.range (op.i2 - op.i1)).map fun k =>
      { type := "match", transcribed_index := some (op.i1 + k),
        expected_index := some (op.j1 + k),
        transcribed_word := some (transcribed_words.getD (op.i1 + k) []),
        expected_word := some (expected_words.getD (op.j1 + k) []) }
  | .replace =>
    (List.range (max (op.i2 - op.i1) (op.j2 - op.j1))).map fun k =>
      let t_idx := if op.i1 + k < op.i2 then some (op.i1 + k) else none
      let e_idx := if op.j1 + k < op.j2 then some (op.j1 + k) else none
      { type := "substitution", transcribed_index := t_idx,
        expected_index := e_idx,
        transcribed_word :=
          match t_idx with
          | some t => if t ≠ 0 then some (transcribed_words.getD t []) else none
          | none => none,
        expected_word :=
          match e_idx with
          | some e2 => if e2 ≠ 0 then some (expected_words.getD e2 []) else none
          | none => none }
  | .delete =>
    (List.range (op.i2 - op.i1)).map fun k =>
      { type := "insertion", transcribed_index := some (op.i1 + k),
        expected_index := none,
        transcribed_word := some (transcribed_words.getD (op.i1 + k) []),
        expected_word := none }
  | .insert =>
    (List.range (op.j2 - op.j1)).map fun k =>
      { type := "deletion", transcribed_index := none,
        expected_index := some (op.j1 + k),
        transcribed_word := none,
        expected_word := some (expected_words.getD (op.j1 + k) []) }

/-- Embedding of `get_word_alignment` (alignment.py), parameterized by the
opcode list returned by `difflib.SequenceMatcher(None, transcribed_words,
expected_words).get_opcodes()`; difflib lives outside the repository and is
characterized by `validOpcodesFrom`. -/
def get_word_alignment (transcribed_words expected_words : List (List Char))
    (opcodes : List Opcode) : List AlignmentEntry :=
  opcodes.flatMap (emitOpcode transcribed_words expected_words)


/-- Python exception value raised by an external library call. -/
structure PyExc where
  msg : String
  deriving DecidableEq, Repr

/-- Oracle for the external `librosa`/`numpy` signal-processing collaborator:
one field per library call made by the acoustic detectors, each of which may
raise; `none` at a detector's argument models `import librosa` raising
`ImportError`. -/
structure Librosa where
  load : String → Except PyExc (List ℚ × ℚ)
  rms : List ℚ → Nat → Nat → Except PyExc (List ℚ)
  stft : List ℚ → Nat → Nat → Except PyExc (List (List ℚ))
  fft_frequencies : ℚ → Nat → Except PyExc (List ℚ)
  onset_strength : List ℚ → ℚ → Nat → Except PyExc (List ℚ)

/-- Threshold `MADD_SHORT_THRESHOLD` (seconds) of `detect_madd_errors`. -/
def MADD_SHORT_THRESHOLD : ℚ := 0.15

/-- Threshold `MADD_NORMAL_MIN` of `detect_madd_errors`. -/
def MADD_NORMAL_MIN : ℚ := 0.18

/-- Threshold `MADD_NORMAL_MAX` of `detect_madd_errors`. -/
def MADD_NORMAL_MAX : ℚ := 0.50

/-- Threshold `MADD_LONG_THRESHOLD` of `detect_madd_errors`. -/
def MADD_LONG_THRESHOLD : ℚ := 0.60

/-- Threshold `GHUNNAH_MIN_DURATION` of `detect_ghunnah_errors`. -/
def GHUNNAH_MIN_DURATION : ℚ := 0.12

/-- Threshold `GHUNNAH_NASAL_RATIO_THRESHOLD` of `detect_ghunnah_errors`. -/
def GHUNNAH_NASAL_RATIO_THRESHOLD : ℚ := 0.3

/-- Threshold `QALQALAH_BURST_THRESHOLD` of `detect_qalqalah_errors`. -/
def QALQALAH_BURST_THRESHOLD : ℚ := 1.5

/-- Threshold `QALQALAH_MIN_ENERGY` of `detect_qalqalah_errors`. -/
def QALQALAH_MIN_ENERGY : ℚ := 0.1

/-- Word-timing dicts collected from the segments at the top of each
acoustic detector. -/
def collectWordTimings (segments : List Segment) : List WordInfo :=
  segments.flatMap (·.words)

/-- Flattened enumeration `for word_idx, word: for char_idx, char` over the
words of the expected text, in source order. -/
def enumWordChars (expected_words : List (List Char)) :
    List (Nat × List Char × Nat × Char) :=
  (expected_words.enum).flatMap fun p =>
    (p.2.enum).map fun q => (p.1, p.2, q.1, q.2)

/-- Runs the per-character loop body of an acoustic detector over all
(word, character) positions, threading the accumulated `errors` list; a
raised exception carries the errors appended before it (the Python `errors`
list survives into the `except` clause). -/
def runSteps (step : Nat × List Char × Nat × Char → List TajweedError →
    Except PyExc (List TajweedError)) :
    List (Nat × List Char × Nat × Char) → List TajweedError →
    Except (PyExc × List TajweedError) (List TajweedError)
  | [], errs => .ok errs
  | it :: its, errs =>
    match step it errs with
    | .ok errs2 => runSteps step its errs2
    | .error ex => .error (ex, errs)

/-- Record appended for a too-short madd; the `expected` field is the
f-string `f"{MADD_NORMAL_MIN}-{MADD_NORMAL_MAX}s"`, which Python renders
as "0.18-0.5s". -/
def maddShortError (char : Char) (madd_start madd_end duration : ℚ)
    (word_idx : Nat) : TajweedError :=
  { type := .madd_short, letter := some char,
    expected := some "0.18-0.5s",
    detected := some (pyFormat2 duration ++ "s"),
    start_time := madd_start, end_time := madd_end,
    confidence := 0.75,
    suggestion := "The madd (elongation) is too short. Hold the sound for 2-4 counts.",
    correction_audio_url := "/api/v1/correction/audio/madd_example",
    word_index := some word_idx, severity := "medium" }

/-- Record appended for a too-long madd; its suggestion is the raw
`SUGGESTIONS[MADD_LONG]` template (no placeholder). -/
def maddLongError (char : Char) (madd_start madd_end duration : ℚ)
    (word_idx : Nat) : TajweedError :=
  { type := .madd_long, letter := some char,
    expected := some "0.18-0.5s",
    detected := some (pyFormat2 duration ++ "s"),
    start_time := madd_start, end_time := madd_end,
    confidence := 0.70,
    suggestion := "The madd is too long. Reduce the elongation slightly.",
    correction_audio_url := "/api/v1/correction/audio/madd_example",
    word_index := some word_idx, severity := "low" }

/-- Loop body of `detect_madd_errors` for one expected character.
`char_pos` is the source's `char_ratio`. -/
def maddStep (L : Librosa) (y : List ℚ) (sr : ℚ)
    (word_timings : List WordInfo) (item : Nat × List Char × Nat × Char)
    (errs : List TajweedError) : Except PyExc (List TajweedError) :=
  let word_idx := item.1
  let word := item.2.1
  let char_idx := item.2.2.1
  let char := item.2.2.2
  if char ∈ MADD_LETTERS then
    if word_idx < word_timings.length then
      let word_info := word_timings.getD word_idx default
      let start_time := word_info.start
      let end_time := word_info.endTime
      let word_duration := end_time - start_time
      if word_duration > 0 ∧ word.length > 0 then
        let char_pos := (char_idx : ℚ) / (word.length : ℚ)
        let madd_start := start_time + word_duration * char_pos
        let madd_end := madd_start + word_duration / (word.length : ℚ)
        let start_sample := pyInt (madd_start * sr)
        let end_sample := pyInt (madd_end * sr)
        if start_sample < (y.length : ℤ) ∧ end_sample ≤ (y.length : ℤ) then
          let madd_audio := pySlice y start_sample end_sample
          if madd_audio.length > 0 then
            match L.rms madd_audio 256 64 with
            | .error ex => .error ex
            | .ok rms =>
              let threshold := npMean rms * 0.5
              let voiced_frames := (rms.filter fun r => decide (r > threshold)).length
              let duration := (voiced_frames : ℚ) * 64 / sr
              if duration < MADD_SHORT_THRESHOLD then
                .ok (errs ++ [maddShortError char madd_start madd_end duration word_idx])
              else if duration > MADD_LONG_THRESHOLD then
                .ok (errs ++ [maddLongError char madd_start madd_end duration word_idx])
              else .ok errs
          else .ok errs
        else .ok errs
      else .ok errs
    else .ok errs
  else .ok errs

/-- Embedding of `detect_madd_errors` (tajweed.py).  The whole body runs
inside `try/except`: a missing library (`librosa = none`, the `ImportError`
arm) and any raising library call are caught, a warning is logged (logging
is not modelled), and the accumulated `errors` list is returned; the
function itself therefore never propagates an exception. -/
def detect_madd_errors (librosa : Option Librosa) (audio_path : String)
    (expected_text : List Char) (segments : List Segment) :
    Except PyExc (List TajweedError) :=
  match librosa with
  | none => .ok []
  | some L =>
    match L.load audio_path with
    | .error _ => .ok []
    | .ok (y, sr) =>
      let word_timings := collectWordTimings segments
      let expected_words := pySplit expected_text
      match runSteps (maddStep L y sr word_timings)
          (enumWordChars expected_words) [] with
      | .ok errs => .ok errs
      | .error (_, errs) => .ok errs

/-- Context test of `detect_ghunnah_errors`: noon/meem followed by shadda,
at word end, or followed by sukun. -/
def requiresGhunnah (word : List Char) (char_idx : Nat) (char : Char) : Bool :=
  decide (char ∈ GHUNNAH_LETTERS) &&
    (decide (char_idx + 1 < word.length ∧ word.getD (char_idx + 1) ' ' = SHADDA) ||
     decide (char_idx = word.length - 1) ||
     decide (char_idx + 1 < word.length ∧ word.getD (char_idx + 1) ' ' = SUKUN))

/-- Record appended for a missing ghunnah. -/
def ghunnahMissingError (char : Char) (ghunnah_start ghunnah_end : ℚ)
    (word_idx : Nat) : TajweedError :=
  { type := .ghunnah_missing, letter := some char,
    expected := some "nasalization",
    detected := some "no nasalization",
    start_time := ghunnah_start, end_time := ghunnah_end,
    confidence := 0.70,
    suggestion := "Ghunnah (nasalization) is required on \x27" ++
      char.toString ++ "\x27. Let the sound resonate in the nose.",
    correction_audio_url := "/api/v1/correction/audio/ghunnah_example",
    word_index := some word_idx, severity := "medium" }

/-- Record appended for a too-short ghunnah; the `expected` field ">=0.12s"
is the f-string `f">={GHUNNAH_MIN_DURATION}s"`, and the suggestion is the
raw `SUGGESTIONS[GHUNNAH_SHORT]` template (no placeholder). -/
def ghunnahShortError (char : Char) (ghunnah_start ghunnah_end duration : ℚ)
    (word_idx : Nat) : TajweedError :=
  { type := .ghunnah_short, letter := some char,
    expected := some ">=0.12s",
    detected := some (pyFormat2 duration ++ "s"),
    start_time := ghunnah_start, end_time := ghunnah_end,
    confidence := 0.65,
    suggestion := "The ghunnah is too short. Extend the nasal sound for 2 counts.",
    correction_audio_url := "/api/v1/correction/audio/ghunnah_example",
    word_index := some word_idx, severity := "low" }

/-- Loop body of `detect_ghunnah_errors` for one expected character.
`nasal_q` is the source's `nasal_ratio`.  Boolean mask indexing
`S[mask, :]` requires the mask length to equal the number of rows of `S`
(else `numpy` raises `IndexError`). -/
def ghunnahStep (L : Librosa) (y : List ℚ) (sr : ℚ)
    (word_timings : List WordInfo) (item : Nat × List Char × Nat × Char)
    (errs : List TajweedError) : Except PyExc (List TajweedError) :=
  let word_idx := item.1
  let word := item.2.1
  let char_idx := item.2.2.1
  let char := item.2.2.2
  if requiresGhunnah word char_idx char ∧ word_idx < word_timings.length then
    let word_info := word_timings.getD word_idx default
    let start_time := word_info.start
    let end_time := word_info.endTime
    let word_duration := end_time - start_time
    if word_duration > 0 ∧ word.length > 0 then
      let char_pos := (char_idx : ℚ) / (word.length : ℚ)
      let ghunnah_start := start_time + word_duration * char_pos
      let ghunnah_end := min (ghunnah_start + 0.3) end_time
      let start_sample := pyInt (ghunnah_start * sr)
      let end_sample := pyInt (ghunnah_end * sr)
      if start_sample < (y.length : ℤ) ∧ end_sample ≤ (y.length : ℤ) then
        let ghunnah_audio := pySlice y start_sample end_sample
        if ghunnah_audio.length > 0 then
          match L.stft ghunnah_audio 512 128 with
          | .error ex => .error ex
          | .ok S =>
            match L.fft_frequencies sr 512 with
            | .error ex => .error ex
            | .ok freqs =>
              if freqs.length = S.length then
                let nasalRows := ((freqs.zip S).filter fun fr =>
                  decide (250 ≤ fr.1 ∧ fr.1 ≤ 450)).map (·.2)
                let totalRows := ((freqs.zip S).filter fun fr =>
                  decide (100 ≤ fr.1 ∧ fr.1 ≤ 2000)).map (·.2)
                let nasal_energy := npMean nasalRows.flatten
                let total_energy := npMean totalRows.flatten
                if total_energy > 0 then
                  let nasal_q := nasal_energy / total_energy
                  match L.rms ghunnah_audio 256 64 with
                  | .error ex => .error ex
                  | .ok rms =>
                    let threshold := npMean rms * 0.4
                    let voiced_frames :=
                      (rms.filter fun r => decide (r > threshold)).length
                    let duration := (voiced_frames : ℚ) * 64 / sr
                    if nasal_q < GHUNNAH_NASAL_RATIO_THRESHOLD then
                      .ok (errs ++ [ghunnahMissingError char ghunnah_start ghunnah_end word_idx])
                    else if duration < GHUNNAH_MIN_DURATION then
                      .ok (errs ++ [ghunnahShortError char ghunnah_start ghunnah_end duration word_idx])
                    else .ok errs
                else .ok errs
              else .error ⟨"IndexError: boolean index did not match array length"⟩
        else .ok errs
      else .ok errs
    else .ok errs
  else .ok errs

/-- Embedding of `detect_ghunnah_errors` (tajweed.py); same `try/except`
structure as `detect_madd_errors`. -/
def detect_ghunnah_errors (librosa : Option Librosa) (audio_path : String)
    (expected_text : List Char) (segments : List Segment) :
    Except PyExc (List TajweedError) :=
  match librosa with
  | none => .ok []
  | some L =>
    match L.load audio_path with
    | .error _ => .ok []
    | .ok (y, sr) =>
      let word_timings := collectWordTimings segments
      let expected_words := pySplit expected_text
      match runSteps (ghunnahStep L y sr word_timings)
          (enumWordChars expected_words) [] with
      | .ok errs => .ok errs
      | .error (_, errs) => .ok errs

/-- Context test of `detect_qalqalah_errors`: one of the five qalqalah
letters at word end, followed by sukun, or followed by any non-diacritic
character (implied sukun). -/
def requiresQalqalah (word : List Char) (char_idx : Nat) (char : Char) : Bool :=
  decide (char ∈ QALQALAH_LETTERS) &&
    (decide (char_idx = word.length - 1) ||
     decide (char_idx + 1 < word.length ∧ word.getD (char_idx + 1) ' ' = SUKUN) ||
     (decide (char_idx + 1 < word.length) &&
      !is_diacritic (word.getD (char_idx + 1) ' ')))

/-- Record appended for a missing qalqalah bounce. -/
def qalqalahMissingError (char : Char) (qalqalah_start qalqalah_end : ℚ)
    (word_idx : Nat) : TajweedError :=
  { type := .qalqalah_missing, letter := some char,
    expected := some "echoing bounce",
    detected := some "no bounce detected",
    start_time := qalqalah_start, end_time := qalqalah_end,
    confidence := 0.65,
    suggestion := "Qalqalah (echoing bounce) is required on \x27" ++
      char.toString ++ "\x27. Add a slight bounce/echo.",
    correction_audio_url := "/api/v1/correction/audio/qalqalah_example",
    word_index := some word_idx, severity := "medium" }

/-- Record appended for a weak qalqalah bounce. -/
def qalqalahWeakError (char : Char) (qalqalah_start qalqalah_end : ℚ)
    (word_idx : Nat) : TajweedError :=
  { type := .qalqalah_weak, letter := some char,
    expected := some "strong bounce",
    detected := some "weak bounce",
    start_time := qalqalah_start, end_time := qalqalah_end,
    confidence := 0.60,
    suggestion := "The qalqalah on \x27" ++ char.toString ++
      "\x27 is too weak. Make the bounce clearer.",
    correction_audio_url := "/api/v1/correction/audio/qalqalah_example",
    word_index := some word_idx, severity := "low" }

/-- Loop body of `detect_qalqalah_errors` for one expected character.
`burst_q` and `onset_q` are the source's `burst_ratio` and `onset_ratio`;
`1/1000000` is the literal `1e-6`. -/
def qalqalahStep (L : Librosa) (y : List ℚ) (sr : ℚ)
    (word_timings : List WordInfo) (item : Nat × List Char × Nat × Char)
    (errs : List TajweedError) : Except PyExc (List TajweedError) :=
  let word_idx := item.1
  let word := item.2.1
  let char_idx := item.2.2.1
  let char := item.2.2.2
  if requiresQalqalah word char_idx char ∧ word_idx < word_timings.length then
    let word_info := word_timings.getD word_idx default
    let start_time := word_info.start
    let end_time := word_info.endTime
    let word_duration := end_time - start_time
    if word_duration > 0 ∧ word.length > 0 then
      let char_pos := (char_idx : ℚ) / (word.length : ℚ)
      let qalqalah_start := start_time + word_duration * char_pos
      let qalqalah_end := min (qalqalah_start + 0.15) end_time
      let start_sample := pyInt (qalqalah_start * sr)
      let end_sample := pyInt (qalqalah_end * sr)
      if start_sample < (y.length : ℤ) ∧ end_sample ≤ (y.length : ℤ) then
        let qalqalah_audio := pySlice y start_sample end_sample
        if qalqalah_audio.length > 256 then
          match L.rms qalqalah_audio 128 32 with
          | .error ex => .error ex
          | .ok rms =>
            if rms.length > 2 then
              let peak_energy := npMax rms
              let mean_energy := npMean rms
              match L.onset_strength qalqalah_audio sr 32 with
              | .error ex => .error ex
              | .ok onset_env =>
                let onset_peak := if onset_env.length > 0 then npMax onset_env else 0
                let onset_mean := if onset_env.length > 0 then npMean onset_env else 1
                let burst_q := peak_energy / (mean_energy + 1 / 1000000)
                let onset_q := onset_peak / (onset_mean + 1 / 1000000)
                if burst_q < QALQALAH_BURST_THRESHOLD ∧ onset_q < 2 then
                  .ok (errs ++ [qalqalahMissingError char qalqalah_start qalqalah_end word_idx])
                else if peak_energy < QALQALAH_MIN_ENERGY then
                  .ok (errs ++ [qalqalahWeakError char qalqalah_start qalqalah_end word_idx])
                else .ok errs
            else .ok errs
        else .ok errs
      else .ok errs
    else .ok errs
  else .ok errs

/-- Embedding of `detect_qalqalah_errors` (tajweed.py); same `try/except`
structure as `detect_madd_errors`. -/
def detect_qalqalah_errors (librosa : Option Librosa) (audio_path : String)
    (expected_text : List Char) (segments : List Segment) :
    Except PyExc (List TajweedError) :=
  match librosa with
  | none => .ok []
  | some L =>
    match L.load audio_path with
    | .error _ => .ok []
    | .ok (y, sr) =>
      let word_timings := collectWordTimings segments
      let expected_words := pySplit expected_text
      match runSteps (qalqalahStep L y sr word_timings)
          (enumWordChars expected_words) [] with
      | .ok errs => .ok errs
      | .error (_, errs) => .ok errs

/-- Helper: `round` on rationals is monotone. -/
theorem round_mono_rat {a b : ℚ} (h : a ≤ b) : round a ≤ round b := by
  rw [round_eq, round_eq]
  exact Int.floor_le_floor (by linarith)

/-- Helper: `py_round2` is monotone. -/
theorem py_round2_mono {a b : ℚ} (h : a ≤ b) : py_round2 a ≤ py_round2 b := by
  unfold py_round2
  have h1 : round (a * 100) ≤ round (b * 100) :=
    round_mono_rat (by linarith)
  have h2 : ((round (a * 100) : ℤ) : ℚ) ≤ ((round (b * 100) : ℤ) : ℚ) :=
    Int.cast_le.mpr h1
  linarith

/-- Helper: `py_round2` fixes 0. -/
theorem py_round2_zero : py_round2 0 = 0 := by
  simp [py_round2]

/-- Helper: `py_round2` fixes 1. -/
theorem py_round2_one : py_round2 1 = 1 := by
  norm_num [py_round2]

/-- Claim C1: for every error list and word count, `calculate_score` returns
1.0 minus the sum of per-error severity penalties (0.15 for "high", 0.08 for
"medium", 0.03 for "low", 0.08 for any other severity string) clamped to
[0, 1] and rounded to 2 decimal places, and for a zero expected-word count
it returns exactly 0.0 — as a returned value, not an exception (the
embedding is a total function); `spec_score` spells out the claim's own
wording. -/
theorem calculate_score_matches_spec (errors : List TajweedError)
    (word_count : Nat) :
    calculate_score errors word_count = spec_score errors word_count := by
  unfold calculate_score spec_score
  cases word_count with
  | zero => rfl
  | succ n =>
    simp only [severityWeight, Nat.succ_ne_zero, if_false]
    congr 1
    rw [max_min_distrib_left]
    norm_num

/-- Claim C7: appending one error whose severity maps to a strictly positive
penalty never increases `calculate_score`, and the score always lies in
[0, 1]. -/
theorem calculate_score_monotone_bounded (E : List TajweedError)
    (e : TajweedError) (word_count : Nat)
    (h : 0 < severityWeight e.severity) :
    calculate_score (E ++ [e]) word_count ≤ calculate_score E word_count ∧
    0 ≤ calculate_score E word_count ∧ calculate_score E word_count ≤ 1 := by
  unfold calculate_score
  cases word_count with
  | zero => norm_num
  | succ n =>
    simp only [Nat.succ_ne_zero, if_false, List.map_append, List.sum_append,
      List.map_cons, List.map_nil, List.sum_cons, List.sum_nil]
    refine ⟨?_, ?_, ?_⟩
    · apply py_round2_mono
      apply max_le_max le_rfl
      apply min_le_min le_rfl
      linarith
    · calc (0 : ℚ) = py_round2 0 := py_round2_zero.symm
        _ ≤ _ := py_round2_mono (le_max_left 0 _)
    · calc py_round2 _ ≤ py_round2 1 :=
          py_round2_mono (max_le (by norm_num) (min_le_left 1 _))
        _ = 1 := py_round2_one

/-- Witness for claim C7 at a concrete high-severity error. -/
theorem calculate_score_monotone_bounded_witness :
    calculate_score [⟨.substituted_letter, none, none, none, 0, 0, 0.75, "",
        "", none, "high"⟩] 1 ≤ calculate_score [] 1 ∧
    0 ≤ calculate_score [] 1 ∧ calculate_score [] 1 ≤ 1 :=
  calculate_score_monotone_bounded []
    ⟨.substituted_letter, none, none, none, 0, 0, 0.75, "", "", none, "high"⟩
    1 (by norm_num [severityWeight])

/-- Claim C4: `detect_missing_words` emits one `missing_word` error
(severity "high", confidence 0.8, zero-length time window at 0, and
`word_index` the expected word's index) for exactly the expected indices
from the transcribed word count up to the expected word count minus one
when the transcribed count is smaller, and emits no errors otherwise. -/
theorem detect_missing_words_exact_tail (transcribed_words : List WordInfo)
    (expected_words : List (List Char)) (segments : List Segment) :
    (transcribed_words.length < expected_words.length →
      (detect_missing_words transcribed_words expected_words segments).map
        (·.word_index) =
        (List.range' transcribed_words.length
          (expected_words.length - transcribed_words.length)).map some) ∧
    (¬ transcribed_words.length < expected_words.length →
      detect_missing_words transcribed_words expected_words segments = []) ∧
    ∀ err ∈ detect_missing_words transcribed_words expected_words segments,
      err.type = .missing_word ∧ err.severity = "high" ∧
      err.confidence = 0.8 ∧ err.start_time = 0 ∧ err.end_time = 0 ∧
      ∃ i, err.word_index = some i ∧ transcribed_words.length ≤ i ∧
        i < expected_words.length ∧
        err.expected = some (String.mk (expected_words.getD i [])) := by
  unfold detect_missing_words
  simp only [List.length_map, gt_iff_lt]
  refine ⟨fun h => ?_, fun h => ?_, fun err herr => ?_⟩
  · rw [if_pos h, List.map_map]
    rfl
  · rw [if_neg h]
  · by_cases h : transcribed_words.length < expected_words.length
    · rw [if_pos h] at herr
      rcases List.mem_map.mp herr with ⟨i, hi, rfl⟩
      rcases List.mem_range'_1.mp hi with ⟨h1, h2⟩
      refine ⟨rfl, rfl, rfl, rfl, rfl, i, rfl, h1, by omega, rfl⟩
    · rw [if_neg h] at herr
      exact absurd herr (List.not_mem_nil err)

/-- Witness for claim C4: two expected words, none transcribed, and the
degenerate non-emitting direction. -/
theorem detect_missing_words_exact_tail_witness :
    (detect_missing_words [] [['ا'], ['ب']] []).map (·.word_index) =
      (List.range' 0 2).map some ∧
    detect_missing_words [⟨[], 0, 0⟩] [] [] = [] :=
  ⟨(detect_missing_words_exact_tail [] [['ا'], ['ب']] []).1 (by decide),
   (detect_missing_words_exact_tail [⟨[], 0, 0⟩] [] []).2.1 (by decide)⟩

/-- Claim C10: `phoneme_similarity` returns 0.0 whenever either input text
(not only both) maps to an empty phoneme sequence. -/
theorem phoneme_similarity_zero_of_empty_phonemes (text1 text2 : List Char)
    (h : arabic_to_phonemes text1 = [] ∨ arabic_to_phonemes text2 = []) :
    phoneme_similarity text1 text2 = 0 := by
  rcases h with h | h <;> simp [phoneme_similarity, h]

/-- Witness for claim C10: the empty string against a non-empty text, and a
text made only of characters outside the grapheme and diacritic tables. -/
theorem phoneme_similarity_zero_of_empty_phonemes_witness :
    phoneme_similarity [] ['ب'] = 0 ∧ phoneme_similarity ['Q'] ['ب'] = 0 :=
  ⟨phoneme_similarity_zero_of_empty_phonemes [] ['ب'] (Or.inl rfl),
   phoneme_similarity_zero_of_empty_phonemes ['Q'] ['ب'] (Or.inl rfl)⟩

/-- Claim C9: each acoustic rule detector returns a list and never
propagates an exception: for every oracle behaviour (including every library
call raising) the result is `Except.ok` of some list, and when the
signal-processing dependency is unavailable (`librosa = none`, the
`ImportError` arm, where the source logs a warning) the result is the empty
list for that rule category. -/
theorem acoustic_detectors_degrade_gracefully (librosa : Option Librosa)
    (audio_path : String) (expected_text : List Char)
    (segments : List Segment) :
    (∃ l, detect_madd_errors librosa audio_path expected_text segments =
      .ok l) ∧
    (∃ l, detect_ghunnah_errors librosa audio_path expected_text segments =
      .ok l) ∧
    (∃ l, detect_qalqalah_errors librosa audio_path expected_text segments =
      .ok l) ∧
    (librosa = none →
      detect_madd_errors librosa audio_path expected_text segments =
        .ok [] ∧
      detect_ghunnah_errors librosa audio_path expected_text segments =
        .ok [] ∧
      detect_qalqalah_errors librosa audio_path expected_text segments =
        .ok []) := by
  rcases librosa with _ | L
  · exact ⟨⟨[], rfl⟩, ⟨[], rfl⟩, ⟨[], rfl⟩, fun _ => ⟨rfl, rfl, rfl⟩⟩
  · refine ⟨?_, ?_, ?_, fun h => by cases h⟩
    · rcases hl : L.load audio_path with ex | ⟨y, sr⟩
      · exact ⟨[], by simp [detect_madd_errors, hl]⟩
      · simp only [detect_madd_errors, hl]
        rcases hr : runSteps (maddStep L y sr (collectWordTimings segments))
            (enumWordChars (pySplit expected_text)) [] with ⟨ex2, errs⟩ | errs <;>
          simp [hr]
    · rcases hl : L.load audio_path with ex | ⟨y, sr⟩
      · exact ⟨[], by simp [detect_ghunnah_errors, hl]⟩
      · simp only [detect_ghunnah_errors, hl]
        rcases hr : runSteps (ghunnahStep L y sr (collectWordTimings segments))
            (enumWordChars (pySplit expected_text)) [] with ⟨ex2, errs⟩ | errs <;>
          simp [hr]
    · rcases hl : L.load audio_path with ex | ⟨y, sr⟩
      · exact ⟨[], by simp [detect_qalqalah_errors, hl]⟩
      · simp only [detect_qalqalah_errors, hl]
        rcases hr : runSteps (qalqalahStep L y sr (collectWordTimings segments))
            (enumWordChars (pySplit expected_text)) [] with ⟨ex2, errs⟩ | errs <;>
          simp [hr]

/-- Helper: `getD` at an in-range index is the element there. -/
theorem getD_eq_getElem_of_lt {α : Type} (l : List α) (d : α) {i : Nat}
    (h : i < l.length) : l.getD i d = l[i] := by
  simp [List.getD_eq_getElem?_getD, List.getElem?_eq_getElem h]

/-- Claim C5: whenever the expected word at index `i` is positionally paired
with a transcribed word and position `j` holds two differing non-diacritic
characters whose pair is listed in the confusion table, the detector emits
the `substituted_letter` error with expected/detected set to those
characters, severity "high", confidence 0.75, `word_index = i`, and the
matched ASR word's start/end times; and the spec's scenario — expected
"قُلْ" against transcribed "كُلْ" — yields exactly one such error with
expected "ق" and detected "ك". -/
theorem detect_substituted_letters_emits (transcribed_words : List WordInfo)
    (expected_words : List (List Char)) (segments : List Segment)
    (i j : Nat) (ec tc : Char)
    (hit : i < transcribed_words.length) (hie : i < expected_words.length)
    (hje : j < (expected_words.getD i []).length)
    (hjt : j < ((transcribed_words.getD i default).word).length)
    (hec : (expected_words.getD i []).getD j ' ' = ec)
    (htc : ((transcribed_words.getD i default).word).getD j ' ' = tc)
    (hd1 : is_diacritic ec = false) (hd2 : is_diacritic tc = false)
    (hne : ec ≠ tc) (confusions : List Char)
    (hlk : SIMILAR_LETTERS.lookup ec = some confusions)
    (hmem : tc ∈ confusions) :
    substitutedLetterError ec tc (transcribed_words.getD i default) i ∈
      detect_substituted_letters transcribed_words expected_words segments ∧
    detect_substituted_letters [⟨"كُلْ".data, 0.5, 1⟩] ["قُلْ".data] [] =
      [substitutedLetterError 'ق' 'ك' ⟨"كُلْ".data, 0.5, 1⟩ 0] := by
  constructor
  · unfold detect_substituted_letters
    apply List.mem_flatMap.mpr
    refine ⟨(i, expected_words.getD i []), ?_, ?_⟩
    · apply List.mk_mem_enum_iff_getElem?.mpr
      rw [List.getElem?_eq_getElem hie, getD_eq_getElem_of_lt _ _ hie]
    · have hlen : i < (transcribed_words.map (·.word)).length := by
        simpa using hit
      rw [if_pos hlen]
      apply List.mem_filterMap.mpr
      refine ⟨(ec, tc), ?_, ?_⟩
      · have htw : (transcribed_words.map (·.word)).getD i [] =
            (transcribed_words.getD i default).word := by
          rw [getD_eq_getElem_of_lt _ _ hlen, getD_eq_getElem_of_lt _ _ hit]
          simp
        rw [htw]
        apply List.getElem?_mem (n := j)
        rw [List.getElem?_zip_eq_some]
        constructor
        · rw [List.getElem?_eq_getElem hje, ← getD_eq_getElem_of_lt _ ' ' hje,
            hec]
        · rw [List.getElem?_eq_getElem hjt, ← getD_eq_getElem_of_lt _ ' ' hjt,
            htc]
      · simp only [hd1, hd2, Bool.false_eq_true, or_self, if_false, hne,
          ite_not, hlk, hmem, if_pos hit, if_true]
  · rfl

/-- Witness for claim C5 at the specification's scenario input. -/
theorem detect_substituted_letters_emits_witness :
    substitutedLetterError 'ق' 'ك' ⟨"كُلْ".data, 0.5, 1⟩ 0 ∈
      detect_substituted_letters [⟨"كُلْ".data, 0.5, 1⟩] ["قُلْ".data] [] :=
  (detect_substituted_letters_emits [⟨"كُلْ".data, 0.5, 1⟩] ["قُلْ".data] []
    0 0 'ق' 'ك' (by decide) (by decide) (by decide) (by decide) (by decide)
    (by decide) (by decide) (by decide) (by decide) ['ك', 'غ'] (by decide)
    (by decide)).1

/-- Helper: shadda is not a key of the consonant table, so a consonant
(a key of `ARABIC_PHONEMES`) is never the shadda code point. -/
theorem ne_shadda_of_lookup (c : Char) (p : String)
    (hc : ARABIC_PHONEMES.lookup c = some p) : c ≠ SHADDA := by
  intro h
  rw [h] at hc
  have : ARABIC_PHONEMES.lookup SHADDA = none := by decide
  rw [this] at hc
  cases hc

/-- Helper: keys of the consonant table are not whitespace. -/
theorem not_isspace_of_lookup (c : Char) (p : String)
    (hc : ARABIC_PHONEMES.lookup c = some p) : py_isspace c = false := by
  by_contra h
  have hb : py_isspace c = true := by
    cases hpy : py_isspace c
    · exact absurd hpy h
    · rfl
  unfold py_isspace at hb
  have hmem := of_decide_eq_true hb
  have hnone : ∀ x ∈ [' ', '\t', '\n', '\r', '\x0b', '\x0c', '\x1c', '\x1d',
      '\x1e', '\x1f', '\x85', '\xa0', '\u1680', '\u2000', '\u2001', '\u2002',
      '\u2003', '\u2004', '\u2005', '\u2006', '\u2007', '\u2008', '\u2009',
      '\u200A', '\u2028', '\u2029', '\u202F', '\u205F', '\u3000'],
      ARABIC_PHONEMES.lookup x = none := by decide
  rw [hnone c hmem] at hc
  cases hc

/-- Helper for claim C8: processing a prefix never consumes a following
table consonant, so `arabic_to_phonemes` splits at such a consonant.
Stated with an explicit length bound for the strong induction. -/
theorem arabic_to_phonemes_append_aux (c : Char) (p : String)
    (hc : ARABIC_PHONEMES.lookup c = some p) :
    ∀ (n : Nat) (pre : List Char), pre.length ≤ n → ∀ rest,
      arabic_to_phonemes (pre ++ c :: rest) =
        arabic_to_phonemes pre ++ arabic_to_phonemes (c :: rest) := by
  intro n
  induction n with
  | zero =>
    intro pre hlen rest
    have : pre = [] := List.length_eq_zero.mp (Nat.le_zero.mp hlen)
    subst this
    simp [arabic_to_phonemes]
  | succ n ih =>
    intro pre hlen rest
    match pre with
    | [] => simp [arabic_to_phonemes]
    | [x] =>
      have hcs : c ≠ SHADDA := ne_shadda_of_lookup c p hc
      by_cases hx : py_isspace x
      · simp [arabic_to_phonemes, hx]
      · rcases hx2 : ARABIC_PHONEMES.lookup x with _ | px
        · rcases hx3 : DIACRITIC_PHONEMES.lookup x with _ | v
          · simp [arabic_to_phonemes, hx, hx2, hx3]
          · by_cases hv : v = ""
            · simp [arabic_to_phonemes, hx, hx2, hx3, hv]
            · simp [arabic_to_phonemes, hx, hx2, hx3, hv]
        · simp [arabic_to_phonemes, hx, hx2, hcs]
    | x :: y :: pre2 =>
      have IH1 := ih (y :: pre2) (by simp at hlen ⊢; omega) rest
      have IH2 := ih pre2 (by simp at hlen ⊢; omega) rest
      by_cases hx : py_isspace x
      · simp only [List.cons_append, List.append_eq, arabic_to_phonemes, hx, if_true]
        simp only [List.cons_append] at IH1
        rw [IH1]
      · rcases hx2 : ARABIC_PHONEMES.lookup x with _ | px
        · rcases hx3 : DIACRITIC_PHONEMES.lookup x with _ | v
          · simp only [List.cons_append, List.append_eq, arabic_to_phonemes, hx, hx2, hx3,
              Bool.false_eq_true, if_false]
            simp only [List.cons_append] at IH1
            rw [IH1]
          · by_cases hv : v = ""
            · simp only [List.cons_append, List.append_eq, arabic_to_phonemes, hx, hx2, hx3,
                hv, Bool.false_eq_true, if_false, if_true]
              simp only [List.cons_append] at IH1
              rw [IH1]
            · simp only [List.cons_append, List.append_eq, arabic_to_phonemes, hx, hx2, hx3,
                hv, Bool.false_eq_true, if_false]
              simp only [List.cons_append] at IH1
              rw [IH1]
        · by_cases hy : y = SHADDA
          · simp only [List.cons_append, List.append_eq, arabic_to_phonemes, hx, hx2, hy,
              Bool.false_eq_true, if_false, if_true]
            rw [IH2]
          · simp only [List.cons_append, List.append_eq, arabic_to_phonemes, hx, hx2, hy,
              Bool.false_eq_true, if_false]
            simp only [List.cons_append] at IH1
            rw [IH1]

/-- Claim C8: whenever a consonant of the grapheme-to-phoneme table is
immediately followed by the shadda code point, `arabic_to_phonemes` emits
that consonant's phoneme doubled (the token `p ++ p`) and consumes the
shadda, which therefore is never separately tokenized: the remainder of the
output is exactly the phonemes of the text after the shadda. -/
theorem arabic_to_phonemes_gemination (pre post : List Char) (c : Char)
    (p : String) (hc : ARABIC_PHONEMES.lookup c = some p) :
    arabic_to_phonemes (pre ++ c :: SHADDA :: post) =
      arabic_to_phonemes pre ++ (p ++ p) :: arabic_to_phonemes post := by
  rw [arabic_to_phonemes_append_aux c p hc pre.length pre le_rfl
    (SHADDA :: post)]
  congr 1
  have hsp : py_isspace c = false := not_isspace_of_lookup c p hc
  cases post with
  | nil => simp [arabic_to_phonemes, hsp, hc]
  | cons d post2 => simp [arabic_to_phonemes, hsp, hc]

/-- Witness for claim C8: the text "ابّا" — alef, beh+shadda, alef — maps to
["aa", "bb", "aa"]. -/
theorem arabic_to_phonemes_gemination_witness :
    arabic_to_phonemes "ابّا".data = ["aa", "bb", "aa"] := by
  have h := arabic_to_phonemes_gemination ['ا'] ['ا'] 'ب' "b" (by decide)
  exact h

/-- Helper: the Levenshtein matrix entry `dp[i][j]` is at most `max i j`. -/
theorem levDp_le_max (a b : List String) : ∀ i j, levDp a b i j ≤ max i j := by
  intro i
  induction i with
  | zero => intro j; simp [levDp]
  | succ i ih =>
    intro j
    induction j with
    | zero => simp [levDp]
    | succ j ihj =>
      simp only [levDp]
      split
      · have := ih j
        omega
      · have h1 := ih (j + 1)
        have h2 := ihj
        have h3 := ih j
        omega

/-- Helper: on identical sequences the Levenshtein matrix diagonal is 0. -/
theorem levDp_self_eq_zero (a : List String) : ∀ k, levDp a a k k = 0 := by
  intro k
  induction k with
  | zero => simp [levDp]
  | succ k ih => simp [levDp, ih]

/-- Claim C3 (amended): `phoneme_similarity` always lies in [0, 1]; for
identical inputs whose phoneme sequence is non-empty it equals 1.0; and for
two empty inputs it returns 0.0 (not 1.0).  (As stated the claim fails: an
identical non-empty input whose phoneme sequence is empty also returns 0.0,
see the counterexample.) -/
theorem phoneme_similarity_bounds_amended (text1 text2 : List Char) :
    0 ≤ phoneme_similarity text1 text2 ∧ phoneme_similarity text1 text2 ≤ 1 ∧
    (text1 = text2 → arabic_to_phonemes text1 ≠ [] →
      phoneme_similarity text1 text2 = 1) ∧
    phoneme_similarity [] [] = 0 := by
  have main : ∀ t1 t2 : List Char, 0 ≤ phoneme_similarity t1 t2 ∧
      phoneme_similarity t1 t2 ≤ 1 := by
    intro t1 t2
    unfold phoneme_similarity
    by_cases h : arabic_to_phonemes t1 = [] ∨ arabic_to_phonemes t2 = []
    · simp [h]
    · simp only [h, if_false]
      push_neg at h
      have hl1 : 0 < (arabic_to_phonemes t1).length :=
        List.length_pos.mpr h.1
      have hl2 : 0 < (arabic_to_phonemes t2).length :=
        List.length_pos.mpr h.2
      have hD : (0 : ℚ) <
          ((max (arabic_to_phonemes t1).length (arabic_to_phonemes t2).length : ℕ) : ℚ) := by
        have : 0 < max (arabic_to_phonemes t1).length (arabic_to_phonemes t2).length := by
          omega
        exact_mod_cast this
      have hd := levDp_le_max (arabic_to_phonemes t1) (arabic_to_phonemes t2)
        (arabic_to_phonemes t1).length (arabic_to_phonemes t2).length
      have hdq : ((phoneme_levenshtein (arabic_to_phonemes t1)
          (arabic_to_phonemes t2)).1 : ℚ) ≤
          ((max (arabic_to_phonemes t1).length (arabic_to_phonemes t2).length : ℕ) : ℚ) := by
        simp only [phoneme_levenshtein]
        exact_mod_cast hd
      have hq0 : (0 : ℚ) ≤ ((phoneme_levenshtein (arabic_to_phonemes t1)
          (arabic_to_phonemes t2)).1 : ℚ) := by positivity
      constructor
      · have := (div_le_one hD).mpr hdq
        linarith
      · have : 0 ≤ ((phoneme_levenshtein (arabic_to_phonemes t1)
            (arabic_to_phonemes t2)).1 : ℚ) /
            ((max (arabic_to_phonemes t1).length (arabic_to_phonemes t2).length : ℕ) : ℚ) :=
          div_nonneg hq0 hD.le
        linarith
  refine ⟨(main text1 text2).1, (main text1 text2).2, ?_, rfl⟩
  rintro rfl hne
  unfold phoneme_similarity
  have h : ¬ (arabic_to_phonemes text1 = [] ∨ arabic_to_phonemes text1 = []) := by
    simpa using hne
  simp only [h, if_false]
  simp [phoneme_levenshtein, levDp_self_eq_zero]

/-- Counterexample for claim C3 as stated: the lone-sukun text "ْ" is a
non-empty input identical to itself, yet its phoneme sequence is empty and
`phoneme_similarity` returns 0.0, not 1.0. -/
theorem phoneme_similarity_identical_counterexample :
    phoneme_similarity ['ْ'] ['ْ'] = 0 ∧ (['ْ'] : List Char) ≠ [] ∧
      (0 : ℚ) ≠ 1 :=
  ⟨rfl, by decide, by norm_num⟩

/-- Witness for claim C3 (amended) at the identical non-empty input "ب". -/
theorem phoneme_similarity_bounds_amended_witness :
    phoneme_similarity ['ب'] ['ب'] = 1 :=
  (phoneme_similarity_bounds_amended ['ب'] ['ب']).2.2.1 rfl (by decide)

/-- Helper: a valid opcode tiling starting at `(ci, cj)` implies the start
is within the sequence lengths. -/
theorem validOpcodesFrom_le (m n : Nat) :
    ∀ (ops : List Opcode) (ci cj : Nat),
      validOpcodesFrom ci cj m n ops = true → ci ≤ m ∧ cj ≤ n := by
  intro ops
  induction ops with
  | nil =>
    intro ci cj h
    simp only [validOpcodesFrom, Bool.and_eq_true, beq_iff_eq] at h
    omega
  | cons op ops ih =>
    intro ci cj h
    simp only [validOpcodesFrom, Bool.and_eq_true, beq_iff_eq,
      decide_eq_true_eq] at h
    obtain ⟨⟨⟨⟨⟨hi1, hj1⟩, hle1⟩, hle2⟩, htag⟩, hrest⟩ := h
    have := ih op.i2 op.j2 hrest
    omega

/-- Helper: the in-window elements of a range, offset by `s` and cut at `t`,
form exactly `range' s (t - s)`. -/
theorem filterMap_range_window (s t K : Nat) (h1 : s ≤ t) (h2 : t - s ≤ K) :
    (List.range K).filterMap
      (fun k => if s + k < t then some (s + k) else none) =
      List.range' s (t - s) := by
  have hK : K = (t - s) + (K - (t - s)) := by omega
  rw [hK, List.range_add, List.filterMap_append, List.filterMap_map]
  have e1 : (List.range (t - s)).filterMap
      (fun k => if s + k < t then some (s + k) else none) =
      (List.range (t - s)).map (fun k => s + k) := by
    have hpt : ∀ k ∈ List.range (t - s),
        (if s + k < t then some (s + k) else none) = some (s + k) := by
      intro k hk
      have := List.mem_range.mp hk
      rw [if_pos (by omega)]
    rw [List.filterMap_congr hpt]
    exact congrFun (List.filterMap_eq_map (fun k => s + k)) _
  have e2 : (List.range (K - (t - s))).filterMap
      ((fun k => if s + k < t then some (s + k) else none) ∘
        (fun k => (t - s) + k)) = [] := by
    apply List.filterMap_eq_nil_iff.mpr
    intro k hk
    simp only [Function.comp_apply]
    rw [if_neg (by omega)]
  rw [e1, e2, List.append_nil, ← List.range'_eq_map_range]

/-- Helper: a range shifted by `s` through a some-valued `filterMap` is
`range' s K`. -/
theorem filterMap_range_some (s K : Nat) :
    (List.range K).filterMap (fun k => some (s + k)) = List.range' s K := by
  have h : (List.range K).filterMap (some ∘ fun k => s + k) =
      (List.range K).map (fun k => s + k) :=
    congrFun (List.filterMap_eq_map fun k => s + k) _
  rw [List.range'_eq_map_range]
  exact h

/-- Helper: per-opcode index coverage — the defined `transcribed_index`
values of one opcode's entries are exactly its source range, and likewise
for `expected_index` and the target range. -/
theorem emitOpcode_index_ranges (tw ew : List (List Char)) (op : Opcode)
    (hle1 : op.i1 ≤ op.i2) (hle2 : op.j1 ≤ op.j2)
    (heq : op.tag = .equal → op.i2 - op.i1 = op.j2 - op.j1)
    (hdel : op.tag = .delete → op.j2 = op.j1)
    (hins : op.tag = .insert → op.i2 = op.i1) :
    (emitOpcode tw ew op).filterMap (·.transcribed_index) =
      List.range' op.i1 (op.i2 - op.i1) ∧
    (emitOpcode tw ew op).filterMap (·.expected_index) =
      List.range' op.j1 (op.j2 - op.j1) := by
  rcases op with ⟨tag, i1, i2, j1, j2⟩
  simp only at hle1 hle2 heq hdel hins ⊢
  cases tag with
  | equal =>
    simp only [emitOpcode, List.filterMap_map]
    constructor
    · exact filterMap_range_some i1 (i2 - i1)
    · rw [← heq rfl]
      exact filterMap_range_some j1 (i2 - i1)
  | replace =>
    simp only [emitOpcode, List.filterMap_map]
    constructor
    · exact filterMap_range_window i1 i2 _ hle1 (le_max_left _ _)
    · exact filterMap_range_window j1 j2 _ hle2 (le_max_right _ _)
  | delete =>
    simp only [emitOpcode, List.filterMap_map]
    constructor
    · exact filterMap_range_some i1 (i2 - i1)
    · rw [hdel rfl]
      simp
  | insert =>
    simp only [emitOpcode, List.filterMap_map]
    constructor
    · rw [hins rfl]
      simp
    · exact filterMap_range_some j1 (j2 - j1)

/-- Helper: index coverage of the whole alignment, generalized over the
tiling start. -/
theorem get_word_alignment_cover_aux (tw ew : List (List Char)) (m n : Nat) :
    ∀ (ops : List Opcode) (ci cj : Nat),
      validOpcodesFrom ci cj m n ops = true →
      (ops.flatMap (emitOpcode tw ew)).filterMap (·.transcribed_index) =
        List.range' ci (m - ci) ∧
      (ops.flatMap (emitOpcode tw ew)).filterMap (·.expected_index) =
        List.range' cj (n - cj) := by
  intro ops
  induction ops with
  | nil =>
    intro ci cj h
    simp only [validOpcodesFrom, Bool.and_eq_true, beq_iff_eq] at h
    simp [h.1, h.2]
  | cons op ops ih =>
    intro ci cj h
    simp only [validOpcodesFrom, Bool.and_eq_true, beq_iff_eq,
      decide_eq_true_eq] at h
    obtain ⟨⟨⟨⟨⟨hi1, hj1⟩, hle1⟩, hle2⟩, htag⟩, hrest⟩ := h
    have heq : op.tag = .equal → op.i2 - op.i1 = op.j2 - op.j1 := by
      intro ht; rw [ht] at htag; simpa using htag
    have hdel : op.tag = .delete → op.j2 = op.j1 := by
      intro ht; rw [ht] at htag; simpa using htag
    have hins : op.tag = .insert → op.i2 = op.i1 := by
      intro ht; rw [ht] at htag; simpa using htag
    have hbound := validOpcodesFrom_le m n ops op.i2 op.j2 hrest
    have hemit := emitOpcode_index_ranges tw ew op hle1 hle2 heq hdel hins
    have hih := ih op.i2 op.j2 hrest
    simp only [List.flatMap_cons, List.filterMap_append]
    constructor
    · rw [hemit.1, hih.1, hi1]
      have hfin := List.range'_append_1 ci (op.i2 - ci) (m - op.i2)
      rw [show ci + (op.i2 - ci) = op.i2 from by omega,
        show m - op.i2 + (op.i2 - ci) = m - ci from by omega] at hfin
      exact hfin
    · rw [hemit.2, hih.2, hj1]
      have hfin := List.range'_append_1 cj (op.j2 - cj) (n - op.j2)
      rw [show cj + (op.j2 - cj) = op.j2 from by omega,
        show n - op.j2 + (op.j2 - cj) = n - cj from by omega] at hfin
      exact hfin

/-- Claim C2 (amended): for every valid opcode tiling from difflib, the
word-level alignment `get_word_alignment` covers every index of the
transcribed sequence exactly once as `transcribed_index` and every index of
the expected sequence exactly once as `expected_index` — in source order,
the defined indices are exactly `0, ..., length - 1`.  (As stated over the
phoneme-level `phoneme_levenshtein` the claim fails: its backtrace records
no operation for match steps, see the counterexample.) -/
theorem get_word_alignment_covers_indices (tw ew : List (List Char))
    (opcodes : List Opcode)
    (h : validOpcodesFrom 0 0 tw.length ew.length opcodes = true) :
    (get_word_alignment tw ew opcodes).filterMap (·.transcribed_index) =
      List.range tw.length ∧
    (get_word_alignment tw ew opcodes).filterMap (·.expected_index) =
      List.range ew.length := by
  have := get_word_alignment_cover_aux tw ew tw.length ew.length opcodes 0 0 h
  simpa [get_word_alignment, List.range_eq_range'] using this

/-- Counterexample for claim C2 as stated of the phoneme-level aligner: on
the identical one-token sequences `["x"]` and `["x"]` the backtrace records
no operation at all, so index 0 of either sequence appears in no alignment
op — refuting "every index of both inputs appears in exactly one op". -/
theorem phoneme_levenshtein_omits_match_ops :
    (phoneme_levenshtein ["x"] ["x"]).2 = [] ∧
    (["x"] : List String).length = 1 := by
  constructor
  · have h0 : backtrackOps ["x"] ["x"] 0 0 = [] := by
      unfold backtrackOps
      simp
    have h1 : backtrackOps ["x"] ["x"] 1 1 = [] := by
      unfold backtrackOps
      simp
      exact h0
    simp only [phoneme_levenshtein, List.length_cons, List.length_nil,
      Nat.zero_add, h1, List.reverse_nil]
  · rfl

/-- Witness for claim C2 (amended) at a concrete two-word alignment with one
match and one replacement opcode. -/
theorem get_word_alignment_covers_indices_witness :
    (get_word_alignment [['ا'], ['ب']] [['ا'], ['ت']]
        [⟨.equal, 0, 1, 0, 1⟩, ⟨.replace, 1, 2, 1, 2⟩]).filterMap
      (·.transcribed_index) = List.range 2 ∧
    (get_word_alignment [['ا'], ['ب']] [['ا'], ['ت']]
        [⟨.equal, 0, 1, 0, 1⟩, ⟨.replace, 1, 2, 1, 2⟩]).filterMap
      (·.expected_index) = List.range 2 :=
  get_word_alignment_covers_indices [['ا'], ['ب']] [['ا'], ['ت']]
    [⟨.equal, 0, 1, 0, 1⟩, ⟨.replace, 1, 2, 1, 2⟩] (by decide)

/-- Helper: a left fold of single-character removals is one filter. -/
theorem foldl_filter_ne (ds : List Char) :
    ∀ s : List Char, ds.foldl (fun s d => s.filter (· != d)) s =
      s.filter (fun c => decide (c ∉ ds)) := by
  induction ds with
  | nil =>
    intro s
    simp
  | cons d ds ih =>
    intro s
    simp only [List.foldl_cons]
    rw [ih (s.filter (· != d)), List.filter_filter]
    apply List.filter_congr
    intro c _
    by_cases hcd : c = d <;> by_cases hds : c ∈ ds <;>
      simp [hcd, hds, bne]

/-- Helper: `removeDiacritics` is the filter dropping the twelve diacritic
code points. -/
theorem removeDiacritics_filter (text : List Char) :
    removeDiacritics text =
      text.filter (fun c => decide (c ∉ ALIGNMENT_DIACRITICS)) :=
  foldl_filter_ne ALIGNMENT_DIACRITICS text

/-- Helper: characters surviving `removeDiacritics` are non-diacritic
characters of the input. -/
theorem mem_removeDiacritics {c : Char} {text : List Char}
    (h : c ∈ removeDiacritics text) :
    c ∈ text ∧ c ∉ ALIGNMENT_DIACRITICS := by
  rw [removeDiacritics_filter] at h
  have h2 := List.mem_filter.mp h
  exact ⟨h2.1, of_decide_eq_true h2.2⟩

/-- Helper: `removeDiacritics` fixes diacritic-free strings. -/
theorem removeDiacritics_eq_self {text : List Char}
    (h : ∀ c ∈ text, c ∉ ALIGNMENT_DIACRITICS) :
    removeDiacritics text = text := by
  rw [removeDiacritics_filter]
  apply List.filter_eq_self.mpr
  intro a ha
  exact decide_eq_true (h a ha)

/-- Helper: `chNorm` sends every character to ا, ي, ه, or itself. -/
theorem chNorm_cases (c : Char) :
    chNorm c = 'ا' ∨ chNorm c = 'ي' ∨ chNorm c = 'ه' ∨ chNorm c = c := by
  by_cases h1 : c = 'أ' ∨ c = 'إ' ∨ c = 'آ' ∨ c = 'ا'
  · left
    unfold chNorm
    rw [show normalizeAlef c = 'ا' from by unfold normalizeAlef; rw [if_pos h1]]
    decide
  · by_cases h2 : c = 'ى' ∨ c = 'ي'
    · right; left
      unfold chNorm
      rw [show normalizeAlef c = c from by unfold normalizeAlef; rw [if_neg h1],
        show normalizeYeh c = 'ي' from by unfold normalizeYeh; rw [if_pos h2]]
      decide
    · by_cases h3 : c = 'ة'
      · right; right; left
        unfold chNorm
        rw [show normalizeAlef c = c from by unfold normalizeAlef; rw [if_neg h1],
          show normalizeYeh c = c from by unfold normalizeYeh; rw [if_neg h2],
          h3]
        decide
      · right; right; right
        unfold chNorm
        rw [show normalizeAlef c = c from by unfold normalizeAlef; rw [if_neg h1],
          show normalizeYeh c = c from by unfold normalizeYeh; rw [if_neg h2],
          show normalizeTeh c = c from by unfold normalizeTeh; rw [if_neg h3]]

/-- Helper: `chNorm` is pointwise idempotent. -/
theorem chNorm_idem (c : Char) : chNorm (chNorm c) = chNorm c := by
  rcases chNorm_cases c with h | h | h | h <;> rw [h]
  · decide
  · decide
  · decide
  · exact h

/-- Helper: `chNorm` preserves being a non-diacritic. -/
theorem chNorm_not_diacritic (c : Char) (h : c ∉ ALIGNMENT_DIACRITICS) :
    chNorm c ∉ ALIGNMENT_DIACRITICS := by
  rcases chNorm_cases c with hc | hc | hc | hc <;> rw [hc]
  · decide
  · decide
  · decide
  · exact h

/-- Helper: tokens produced by the split helper are non-empty and free of
whitespace, provided the accumulator is whitespace-free. -/
theorem pySplitAux_good : ∀ (s acc : List Char),
    (∀ c ∈ acc, py_isspace c = false) →
    ∀ w ∈ pySplitAux s acc, w ≠ [] ∧ ∀ c ∈ w, py_isspace c = false := by
  intro s
  induction s with
  | nil =>
    intro acc hacc w hw
    simp only [pySplitAux] at hw
    split at hw
    · cases hw
    · rename_i hne
      rw [List.mem_singleton] at hw
      subst hw
      refine ⟨?_, ?_⟩
      · simp only [ne_eq, List.reverse_eq_nil_iff]
        simpa [List.isEmpty_iff] using hne
      · intro c hc
        exact hacc c (List.mem_reverse.mp hc)
  | cons x s ih =>
    intro acc hacc w hw
    simp only [pySplitAux] at hw
    split at hw
    · split at hw
      · exact ih [] (by simp) w hw
      · rename_i hne
        rcases List.mem_cons.mp hw with rfl | hw2
        · refine ⟨?_, ?_⟩
          · simp only [ne_eq, List.reverse_eq_nil_iff]
            simpa [List.isEmpty_iff] using hne
          · intro c hc
            exact hacc c (List.mem_reverse.mp hc)
        · exact ih [] (by simp) w hw2
    · rename_i hx
      refine ih (x :: acc) ?_ w hw
      intro c hc
      rcases List.mem_cons.mp hc with rfl | hc2
      · exact Bool.not_eq_true _ ▸ hx
      · exact hacc c hc2

/-- Helper: characters of split tokens come from the input or the
accumulator. -/
theorem pySplitAux_chars : ∀ (s acc w : List Char),
    w ∈ pySplitAux s acc → ∀ c ∈ w, c ∈ s ∨ c ∈ acc := by
  intro s
  induction s with
  | nil =>
    intro acc w hw c hc
    simp only [pySplitAux] at hw
    split at hw
    · cases hw
    · rw [List.mem_singleton] at hw
      subst hw
      exact Or.inr (List.mem_reverse.mp hc)
  | cons x s ih =>
    intro acc w hw c hc
    simp only [pySplitAux] at hw
    split at hw
    · split at hw
      · rcases ih [] w hw c hc with h | h
        · exact Or.inl (List.mem_cons_of_mem _ h)
        · cases h
      · rcases List.mem_cons.mp hw with rfl | hw2
        · exact Or.inr (List.mem_reverse.mp hc)
        · rcases ih [] w hw2 c hc with h | h
          · exact Or.inl (List.mem_cons_of_mem _ h)
          · cases h
    · rcases ih (x :: acc) w hw c hc with h | h
      · exact Or.inl (List.mem_cons_of_mem _ h)
      · rcases List.mem_cons.mp h with rfl | h2
        · exact Or.inl (List.mem_cons_self _ _)
        · exact Or.inr h2

/-- Helper: every character of a joined token list is the separator space or
a character of some token. -/
theorem mem_pyJoin : ∀ (ts : List (List Char)) (c : Char),
    c ∈ pyJoin ts → c = ' ' ∨ ∃ w ∈ ts, c ∈ w := by
  intro ts
  induction ts with
  | nil =>
    intro c hc
    simp [pyJoin] at hc
  | cons w ws ih =>
    intro c hc
    cases ws with
    | nil =>
      right
      exact ⟨w, by simp, by simpa [pyJoin] using hc⟩
    | cons w2 ws2 =>
      simp only [pyJoin] at hc
      rcases List.mem_append.mp hc with h | h
      · right
        exact ⟨w, by simp, h⟩
      · rcases List.mem_cons.mp h with rfl | h2
        · exact Or.inl rfl
        · rcases ih c h2 with h3 | ⟨w3, hw3, hc3⟩
          · exact Or.inl h3
          · right
            exact ⟨w3, List.mem_cons_of_mem _ hw3, hc3⟩

/-- Helper: the split helper consumes a whitespace-free token into the
accumulator. -/
theorem pySplitAux_consume : ∀ (w : List Char),
    (∀ c ∈ w, py_isspace c = false) →
    ∀ (rest acc : List Char),
      pySplitAux (w ++ rest) acc = pySplitAux rest (w.reverse ++ acc) := by
  intro w
  induction w with
  | nil =>
    intro _ rest acc
    simp
  | cons c w ih =>
    intro hw rest acc
    have hc : py_isspace c = false := hw c (by simp)
    simp only [List.cons_append, List.append_eq, pySplitAux, hc,
      Bool.false_eq_true, if_false]
    rw [ih (fun c2 hc2 => hw c2 (by simp [hc2])) rest (c :: acc)]
    simp

/-- Helper: the split helper flushes a non-empty accumulator at a space. -/
theorem pySplitAux_space (rest acc : List Char) (hacc : acc ≠ []) :
    pySplitAux (' ' :: rest) acc = acc.reverse :: pySplitAux rest [] := by
  have h1 : py_isspace ' ' = true := by decide
  have h2 : acc.isEmpty = false := by
    simp [List.isEmpty_iff, hacc]
  simp [pySplitAux, h1, h2]

/-- Helper: splitting the space-join of non-empty whitespace-free tokens
recovers them. -/
theorem pySplit_pyJoin : ∀ ts : List (List Char),
    (∀ w ∈ ts, w ≠ [] ∧ ∀ c ∈ w, py_isspace c = false) →
    pySplit (pyJoin ts) = ts := by
  intro ts
  induction ts with
  | nil => intro _; rfl
  | cons w ws ih =>
    intro h
    have hw := h w (by simp)
    cases ws with
    | nil =>
      show pySplitAux (pyJoin [w]) [] = [w]
      rw [show pyJoin [w] = w from rfl, ← List.append_nil w,
        pySplitAux_consume w hw.2 [] []]
      simp only [pySplitAux, List.append_nil]
      rw [if_neg]
      · rw [List.reverse_reverse]
      · simp [List.isEmpty_iff, hw.1]
    | cons w2 ws2 =>
      show pySplitAux (pyJoin (w :: w2 :: ws2)) [] = w :: w2 :: ws2
      rw [show pyJoin (w :: w2 :: ws2) = w ++ ' ' :: pyJoin (w2 :: ws2)
          from rfl,
        pySplitAux_consume w hw.2 _ [], List.append_nil]
      rw [pySplitAux_space _ _ (by simp [hw.1])]
      rw [List.reverse_reverse]
      congr 1
      exact ih (fun w3 hw3 => h w3 (List.mem_cons_of_mem _ hw3))

/-- Claim C6: text normalization is idempotent —
`normalize(normalize(s)) = normalize(s)` for every string — and it maps the
empty string to the empty string; the embedding is a total function, so it
is deterministic and raises nothing by construction. -/
theorem normalize_arabic_text_idempotent :
    (∀ text, normalize_arabic_text (normalize_arabic_text text) =
      normalize_arabic_text text) ∧ normalize_arabic_text [] = [] := by
  constructor
  · intro text
    set U := List.map normalizeTeh (List.map normalizeYeh
      (List.map normalizeAlef (removeDiacritics text))) with hU
    have hdef : normalize_arabic_text text = pyJoin (pySplit U) := rfl
    have humap : U = (removeDiacritics text).map chNorm := by
      rw [hU]
      simp only [List.map_map]
      rfl
    have htchars : ∀ c ∈ normalize_arabic_text text,
        c ∉ ALIGNMENT_DIACRITICS ∧ chNorm c = c := by
      intro c hc
      rw [hdef] at hc
      rcases mem_pyJoin _ c hc with rfl | ⟨w, hw, hcw⟩
      · exact ⟨by decide, by decide⟩
      · have hcs := pySplitAux_chars _ [] w hw c hcw
        have hcu : c ∈ U := by
          rcases hcs with h | h
          · exact h
          · cases h
        rw [humap] at hcu
        rcases List.mem_map.mp hcu with ⟨c0, hc0, rfl⟩
        exact ⟨chNorm_not_diacritic c0 (mem_removeDiacritics hc0).2,
          chNorm_idem c0⟩
    have hstep1 : removeDiacritics (normalize_arabic_text text) =
        normalize_arabic_text text :=
      removeDiacritics_eq_self (fun c hc => (htchars c hc).1)
    have hstep2 : List.map normalizeTeh (List.map normalizeYeh
        (List.map normalizeAlef (normalize_arabic_text text))) =
        normalize_arabic_text text := by
      simp only [List.map_map]
      have h : List.map (normalizeTeh ∘ normalizeYeh ∘ normalizeAlef)
          (normalize_arabic_text text) =
          List.map id (normalize_arabic_text text) :=
        List.map_congr_left (fun a ha => (htchars a ha).2)
      rw [h, List.map_id]
    have hstep3 : pySplit (normalize_arabic_text text) = pySplit U := by
      rw [hdef]
      exact pySplit_pyJoin _ (pySplitAux_good _ [] (by simp))
    calc normalize_arabic_text (normalize_arabic_text text)
        = pyJoin (pySplit (List.map normalizeTeh (List.map normalizeYeh
            (List.map normalizeAlef (removeDiacritics
              (normalize_arabic_text text)))))) := rfl
      _ = pyJoin (pySplit (normalize_arabic_text text)) := by
            rw [hstep1, hstep2]
      _ = pyJoin (pySplit U) := by rw [hstep3]
      _ = normalize_arabic_text text := hdef.symm
  · rfl

/-- Witness for claim C9 at the unavailable-dependency input. -/
theorem acoustic_detectors_degrade_gracefully_witness :
    detect_madd_errors none "audio.wav" [] [] = .ok [] ∧
    detect_ghunnah_errors none "audio.wav" [] [] = .ok [] ∧
    detect_qalqalah_errors none "audio.wav" [] [] = .ok [] :=
  (acoustic_detectors_degrade_gracefully none "audio.wav" [] []).2.2.2 rfl

end QariApp
